import Mathlib

/-!
Verification of the two core stateful subsystems of the pixelIsometric
editor: the layer manager (`src/js/layerManager.js`) and the application
state manager (`src/js/state.js`).

The JavaScript is shallowly embedded: each method becomes a pure Lean
function on an explicit state value.  JavaScript arrays of layers are
modelled as `List (Option Layer)`: an entry `none` is an `undefined`
element (a hole), which the original code can produce (reading an
out-of-range index yields `undefined`).  An operation that would throw a
`TypeError` (for example reading `.id` of `undefined`) is modelled by the
`JsResult.threw` outcome; the state component returned alongside it is
the state at the moment of the throw, so partial mutation before a throw
is preserved.  The model is value-semantic: in-place mutation of a found
layer object is rendered as a functional update of the first array entry
holding that layer, which agrees with the JavaScript provided no layer
object occurs at two distinct indices (true in every reachable state,
where layer ids are unique; see the id-uniqueness theorem below).
-/

/-- An opaque renderable-object handle.  The layer manager matches handles
only through their externally attached identity (`object.userData.id` in
the source); `tag` keeps distinct handles with equal identities distinct,
mirroring JavaScript reference identity. -/
structure Obj where
  userDataId : Int
  tag : Nat
deriving DecidableEq, Repr

/-- One layer record: `{ id, name, visible, objects }` in the source. -/
structure Layer where
  id : Int
  name : String
  visible : Bool
  objects : List Obj
deriving DecidableEq, Repr

/-- The `LayerManager` state: ordered layer array, current layer id and
the monotone id counter. -/
structure LM where
  layers : List (Option Layer)
  currentLayerId : Int
  nextLayerId : Int
deriving DecidableEq, Repr

/-- Outcome of a JavaScript call: a returned value, or a thrown
`TypeError`. -/
inductive JsResult (α : Type) where
  | ok (val : α)
  | threw
deriving DecidableEq, Repr

/-- Reading `layers[i]` in JavaScript: a negative or out-of-range index
yields `undefined` (here `none`). -/
def jsGetElem (ls : List (Option Layer)) (i : Int) : Option Layer :=
  if 0 ≤ i then ls.getD i.toNat none else none

/-- Writing `layers[i] = v` in JavaScript: an in-range index updates the
element; an index at or past the length extends the array with holes; a
negative index creates a non-index named property, which is invisible to
every array read, iteration and `length`, so the array itself is
unchanged. -/
def jsSetElem (ls : List (Option Layer)) (i : Int) (v : Option Layer) :
    List (Option Layer) :=
  if 0 ≤ i then
    if i.toNat < ls.length then ls.set i.toNat v
    else ls ++ List.replicate (i.toNat - ls.length) none ++ [v]
  else ls

/-- The loop of `layers.findIndex(layer => layer.id === layerId)` carrying
the running index.  Evaluating the predicate on an `undefined` element
reads `.id` of `undefined` and throws. -/
def findIndexByIdAux : List (Option Layer) → Int → Int → JsResult Int
  | [], _, _ => .ok (-1)
  | none :: _, _, _ => .threw
  | some l :: rest, target, idx =>
    if l.id = target then .ok idx else findIndexByIdAux rest target (idx + 1)

/-- Source `layers.findIndex(layer => layer.id === layerId)`. -/
def findIndexById (ls : List (Option Layer)) (target : Int) : JsResult Int :=
  findIndexByIdAux ls target 0

/-- Source `layers.find(layer => layer.id === layerId)`: first matching layer, or
`undefined` (the inner `none`) when no layer matches. -/
def findById : List (Option Layer) → Int → JsResult (Option Layer)
  | [], _ => .ok none
  | none :: _, _ => .threw
  | some l :: rest, target =>
    if l.id = target then .ok (some l) else findById rest target

/-- Source `layers.find(layer => layer.id !== layerId)`, used by `removeLayer` to
pick the fallback current layer. -/
def findFirstOtherId : List (Option Layer) → Int → JsResult (Option Layer)
  | [], _ => .ok none
  | none :: _, _ => .threw
  | some l :: rest, target =>
    if l.id ≠ target then .ok (some l) else findFirstOtherId rest target

/-- In-place mutation of the layer object returned by a successful
`find`: functionally, update the first array entry whose layer has the
given id. -/
def updateFirstById : List (Option Layer) → Int → (Layer → Layer) →
    List (Option Layer)
  | [], _, _ => []
  | none :: rest, target, f => none :: updateFirstById rest target f
  | some l :: rest, target, f =>
    if l.id = target then some (f l) :: rest
    else some l :: updateFirstById rest target f

/-- Source `layer.objects.findIndex(obj => obj.userData.id === id)` followed by
`splice(index, 1)`: remove the first handle with the matching identity;
`none` when no handle matches. -/
def removeObjFromObjects : List Obj → Int → Option (List Obj)
  | [], _ => none
  | o :: rest, target =>
    if o.userDataId = target then some rest
    else (removeObjFromObjects rest target).map (o :: ·)

/-- The `for (const layer of this.layers)` loop of
`removeObjectFromLayer`: visit layers in order; accessing `.objects` of an
`undefined` element throws; the first layer containing the handle is
updated and the loop stops. -/
def removeObjLayersGo : List (Option Layer) → Int →
    JsResult (Option (List (Option Layer)))
  | [], _ => .ok none
  | none :: _, _ => .threw
  | some l :: rest, target =>
    match removeObjFromObjects l.objects target with
    | some objs2 => .ok (some (some { l with objects := objs2 } :: rest))
    | none =>
      match removeObjLayersGo rest target with
      | .threw => .threw
      | .ok none => .ok none
      | .ok (some rest2) => .ok (some (some l :: rest2))

/-- Source `this.layers.map(layer => layer.id)`: throws on the first `undefined`
element. -/
def mapIds : List (Option Layer) → JsResult (List Int)
  | [] => .ok []
  | none :: _ => .threw
  | some l :: rest =>
    match mapIds rest with
    | .threw => .threw
    | .ok ids => .ok (l.id :: ids)

/-- JavaScript `Array.prototype.sort()` with no comparator: a stable sort
ordered by the string forms of the elements. -/
def jsSortInts (l : List Int) : List Int :=
  l.mergeSort (fun a b => toString a ≤ toString b)

/-- Source `newOrderIds.map(layerId => this.layers.find(layer => layer.id ===
layerId))` in `reorderLayers`: a per-id `find` over the unmodified layer
array; an id matched by no layer contributes `undefined`. -/
def mapFind (ls : List (Option Layer)) : List Int →
    JsResult (List (Option Layer))
  | [] => .ok []
  | lid :: rest =>
    match findById ls lid with
    | .threw => .threw
    | .ok r =>
      match mapFind ls rest with
      | .threw => .threw
      | .ok rs => .ok (r :: rs)

/-- Source `this.layers.flatMap(layer => layer.objects)`: throws on an
`undefined` element. -/
def allObjectsGo : List (Option Layer) → JsResult (List Obj)
  | [] => .ok []
  | none :: _ => .threw
  | some l :: rest =>
    match allObjectsGo rest with
    | .threw => .threw
    | .ok objs => .ok (l.objects ++ objs)

/-- Source `this.layers.filter(layer => layer.visible)`: throws on an
`undefined` element. -/
def visibleFilterGo : List (Option Layer) → JsResult (List (Option Layer))
  | [] => .ok []
  | none :: _ => .threw
  | some l :: rest =>
    match visibleFilterGo rest with
    | .threw => .threw
    | .ok kept => .ok (if l.visible then some l :: kept else kept)

/-- The `LayerManager` constructor: one default layer with id 1,
`currentLayerId = 1`, `nextLayerId = 2`. -/
def initLM : LM :=
  { layers := [some { id := 1, name := "Layer 1", visible := true, objects := [] }]
    currentLayerId := 1
    nextLayerId := 2 }

/-- Source `addLayer(name = Layer ${this.nextLayerId})`: append a fresh visible
layer with id `nextLayerId`, make it current, bump the counter, return
it. -/
def addLayer (m : LM) (name : Option String) : LM × Layer :=
  let nm := name.getD ("Layer " ++ toString m.nextLayerId)
  let newLayer : Layer := { id := m.nextLayerId, name := nm, visible := true, objects := [] }
  ({ layers := m.layers ++ [some newLayer]
     currentLayerId := newLayer.id
     nextLayerId := m.nextLayerId + 1 }, newLayer)

/-- Source `removeLayer(layerId)`: refuse when only one array slot remains or
the id is not found; otherwise re-point `currentLayerId` at the first
layer with a different id when the removed layer is current, then splice
the layer out. -/
def removeLayer (m : LM) (layerId : Int) : LM × JsResult Bool :=
  if m.layers.length ≤ 1 then (m, .ok false)
  else
    match findIndexById m.layers layerId with
    | .threw => (m, .threw)
    | .ok layerIndex =>
      if layerIndex = -1 then (m, .ok false)
      else
        if layerId = m.currentLayerId then
          match findFirstOtherId m.layers layerId with
          | .threw => (m, .threw)
          | .ok none =>
            ({ m with layers := m.layers.eraseIdx layerIndex.toNat }, .ok true)
          | .ok (some fb) =>
            ({ m with
                currentLayerId := fb.id
                layers := m.layers.eraseIdx layerIndex.toNat }, .ok true)
        else
          ({ m with layers := m.layers.eraseIdx layerIndex.toNat }, .ok true)

/-- Source `renameLayer(layerId, newName)`. -/
def renameLayer (m : LM) (layerId : Int) (newName : String) :
    LM × JsResult Bool :=
  match findById m.layers layerId with
  | .threw => (m, .threw)
  | .ok none => (m, .ok false)
  | .ok (some _) =>
    let f : Layer → Layer := fun l => { l with name := newName }
    ({ m with layers := updateFirstById m.layers layerId f }, .ok true)

/-- Source `setCurrentLayer(layerId)`. -/
def setCurrentLayer (m : LM) (layerId : Int) : LM × JsResult Bool :=
  match findById m.layers layerId with
  | .threw => (m, .threw)
  | .ok none => (m, .ok false)
  | .ok (some _) => ({ m with currentLayerId := layerId }, .ok true)

/-- Source `getCurrentLayer()`. -/
def getCurrentLayer (m : LM) : JsResult (Option Layer) :=
  findById m.layers m.currentLayerId

/-- Source `addObjectToCurrentLayer(object)`: push onto the current layer's
object array. -/
def addObjectToCurrentLayer (m : LM) (o : Obj) : LM × JsResult Bool :=
  match getCurrentLayer m with
  | .threw => (m, .threw)
  | .ok none => (m, .ok false)
  | .ok (some _) =>
    let f : Layer → Layer := fun l => { l with objects := l.objects ++ [o] }
    ({ m with layers := updateFirstById m.layers m.currentLayerId f }, .ok true)

/-- Source `removeObjectFromLayer(object)`: remove the first identity match
across layers in order. -/
def removeObjectFromLayer (m : LM) (o : Obj) : LM × JsResult Bool :=
  match removeObjLayersGo m.layers o.userDataId with
  | .threw => (m, .threw)
  | .ok none => (m, .ok false)
  | .ok (some ls) => ({ m with layers := ls }, .ok true)

/-- Source `moveObjectToLayer(object, targetLayerId)`: first remove the handle
from wherever it is, then look up the target layer and append; the
removal is kept even when the target lookup fails. -/
def moveObjectToLayer (m : LM) (o : Obj) (targetLayerId : Int) :
    LM × JsResult Bool :=
  let step1 := removeObjectFromLayer m o
  match step1.2 with
  | .threw => (step1.1, .threw)
  | .ok _ =>
    let m1 := step1.1
    match findById m1.layers targetLayerId with
    | .threw => (m1, .threw)
    | .ok none => (m1, .ok false)
    | .ok (some _) =>
      let f : Layer → Layer := fun l => { l with objects := l.objects ++ [o] }
      ({ m1 with layers := updateFirstById m1.layers targetLayerId f }, .ok true)

/-- Source `reorderLayers(newOrder)`: compare the stringified sorts of the
current and requested id arrays; on a match rebuild the layer array.
`Array.prototype.sort` sorts `newOrderIds` in place, so the rebuild maps
over the sorted ids, not the requested order. -/
def reorderLayers (m : LM) (newOrder : List Int) : LM × JsResult Bool :=
  match mapIds m.layers with
  | .threw => (m, .threw)
  | .ok currentLayerIds =>
    let sortedCur := jsSortInts currentLayerIds
    let sortedNew := jsSortInts newOrder
    if sortedCur ≠ sortedNew then (m, .ok false)
    else
      match mapFind m.layers sortedNew with
      | .threw => (m, .threw)
      | .ok newLayers => ({ m with layers := newLayers }, .ok true)

/-- Source `moveLayerUp(layerId)`: when the found index is positive, swap with
the previous element. -/
def moveLayerUp (m : LM) (layerId : Int) : LM × JsResult Bool :=
  match findIndexById m.layers layerId with
  | .threw => (m, .threw)
  | .ok currentIndex =>
    if currentIndex > 0 then
      let temp := jsGetElem m.layers (currentIndex - 1)
      let ls1 := jsSetElem m.layers (currentIndex - 1)
        (jsGetElem m.layers currentIndex)
      let ls2 := jsSetElem ls1 currentIndex temp
      ({ m with layers := ls2 }, .ok true)
    else (m, .ok false)

/-- Source `moveLayerDown(layerId)`: when the found index is below
`layers.length - 1`, swap with the next element.  When the id matches no
layer the found index is `-1`, which passes the guard for any non-empty
array: the code then writes `layers[0] = layers[-1]` (that is,
`undefined`) and stores the old first element under the non-index
property `-1`, returning `true`. -/
def moveLayerDown (m : LM) (layerId : Int) : LM × JsResult Bool :=
  match findIndexById m.layers layerId with
  | .threw => (m, .threw)
  | .ok currentIndex =>
    if currentIndex < (m.layers.length : Int) - 1 then
      let temp := jsGetElem m.layers (currentIndex + 1)
      let ls1 := jsSetElem m.layers (currentIndex + 1)
        (jsGetElem m.layers currentIndex)
      let ls2 := jsSetElem ls1 currentIndex temp
      ({ m with layers := ls2 }, .ok true)
    else (m, .ok false)

/-- Source `toggleLayerVisibility(layerId)`: flip and return the new flag, or
`null` (the inner `none`) when the id is not found. -/
def toggleLayerVisibility (m : LM) (layerId : Int) :
    LM × JsResult (Option Bool) :=
  match findById m.layers layerId with
  | .threw => (m, .threw)
  | .ok none => (m, .ok none)
  | .ok (some l) =>
    let f : Layer → Layer := fun l2 => { l2 with visible := !l2.visible }
    ({ m with layers := updateFirstById m.layers layerId f }, .ok (some (!l.visible)))

/-- Source `getAllObjects()`. -/
def getAllObjects (m : LM) : JsResult (List Obj) :=
  allObjectsGo m.layers

/-- Source `getVisibleObjects()`: filter by visibility, then flatten. -/
def getVisibleObjects (m : LM) : JsResult (List Obj) :=
  match visibleFilterGo m.layers with
  | .threw => .threw
  | .ok kept => allObjectsGo kept

/-- A well-formed layer-manager state: every array slot holds an actual
layer. -/
def wfLM (ls : List Layer) (cur next : Int) : LM :=
  { layers := ls.map some, currentLayerId := cur, nextLayerId := next }

/-!
The application state manager (`src/js/state.js`).  The state tree is a
JavaScript value: we model `undefined`, `null`, `NaN`, booleans, integer
numbers (every number the program stores is integral), strings, arrays
and plain objects whose own enumerable properties are kept in insertion
order.  The prototype chain is outside the embedding: member reads see
own data properties only (for arrays and strings this includes `length`
and canonical numeric indices).  The tree has no internal sharing, so
in-place mutation is rendered functionally.
-/

/-- A JavaScript value as stored in the state tree. -/
inductive JVal where
  | undefined
  | null
  | nan
  | bool (b : Bool)
  | num (n : Int)
  | str (s : String)
  | arr (elems : List JVal)
  | obj (fields : List (String × JVal))
deriving Repr

/-- Property read on an object's own fields: `undefined` when absent. -/
def objGet (fields : List (String × JVal)) (k : String) : JVal :=
  match fields with
  | [] => .undefined
  | (k0, v0) :: rest => if k0 = k then v0 else objGet rest k

/-- Property assignment on an object: update an existing key in place
(preserving insertion order) or append a new one. -/
def objSet (fields : List (String × JVal)) (k : String) (v : JVal) :
    List (String × JVal) :=
  match fields with
  | [] => [(k, v)]
  | (k0, v0) :: rest =>
    if k0 = k then (k0, v) :: rest else (k0, v0) :: objSet rest k v

/-- A property key that is a canonical array index (`"0"`, `"17"`, but
not `"00"` or `"+1"`): all digits, and equal to the decimal rendering of
the number it denotes. -/
def canonicalIndex (s : String) : Option Nat :=
  if s.data.all Char.isDigit && !s.data.isEmpty then
    let n := s.data.foldl (fun acc c => acc * 10 + (c.toNat - 48)) 0
    if toString n = s then some n else none
  else none

/-- The member access `v?.[k]` of `getStateProperty`: optional chaining
makes the read of `undefined` and `null` yield `undefined` instead of
throwing; objects expose their fields, arrays and strings expose
`length` and their canonical indices, and the remaining primitives have
no own data properties. -/
def optMember (v : JVal) (k : String) : JVal :=
  match v with
  | .obj fields => objGet fields k
  | .arr elems =>
    if k = "length" then .num elems.length
    else
      match canonicalIndex k with
      | some i => elems.getD i .undefined
      | none => .undefined
  | .str s =>
    if k = "length" then .num s.length
    else
      match canonicalIndex k with
      | some i =>
        match s.data.get? i with
        | some c => .str (String.mk [c])
        | none => .undefined
      | none => .undefined
  | _ => .undefined

/-- The segments of `path.split('.')`, computed over the character
list: an empty string splits to one empty segment, and each `'.'`
starts a new segment, exactly as in JavaScript. -/
def splitDotChars : List Char → List String
  | [] => [""]
  | c :: rest =>
    if c = '.' then "" :: splitDotChars rest
    else
      match splitDotChars rest with
      | [] => [String.mk [c]]
      | sgmt :: others => String.mk (c :: sgmt.data) :: others

/-- Source `path.split('.')`. -/
def jsSplitDot (s : String) : List String :=
  splitDotChars s.data

/-- Source `getStateProperty(path)`:
`path.split('.').reduce((obj, key) => obj?.[key], this.state)`. -/
def getStateProperty (state : JVal) (path : String) : JVal :=
  (jsSplitDot path).foldl optMember state

/-- Modelled from the spec: the value a path reaches by descending the
tree segment by segment.  A segment is looked up among the members of
the current container (an object's fields, or an array's or string's
elements and `length`); a missing segment or a non-container
intermediate yields `undefined`, never an error. -/
def memberOf (v : JVal) (k : String) : Option JVal :=
  match v with
  | .obj fields =>
    match fields with
    | [] => none
    | _ => if (fields.map Prod.fst).contains k then some (objGet fields k) else none
  | .arr elems =>
    if k = "length" then some (.num elems.length)
    else
      match canonicalIndex k with
      | some i => elems.get? i
      | none => none
  | .str s =>
    if k = "length" then some (.num s.length)
    else
      match canonicalIndex k with
      | some i => (s.data.get? i).map (fun c => .str (String.mk [c]))
      | none => none
  | _ => none

/-- Modelled from the spec: segment-by-segment descent, `undefined` as
soon as a segment is missing or the intermediate value is not a
container. -/
def specResolve (v : JVal) : List String → JVal
  | [] => v
  | k :: ks =>
    match memberOf v k with
    | some child => specResolve child ks
    | none => JVal.undefined

/-- Plain (non-optional) member read `current[key]`, used during
`setStateProperty`'s descent: reading a property of `undefined` or
`null` throws a `TypeError`; every other value reads as `optMember`. -/
def memberRead (v : JVal) (k : String) : Option JVal :=
  match v with
  | .undefined => none
  | .null => none
  | _ => some (optMember v k)

/-- Member assignment `current[key] = value`.  These modules are ES
modules and hence strict-mode code, so assigning through a primitive,
`undefined` or `null` throws a `TypeError`.  Objects update or create the
key.  Arrays update a canonical index in range, extend with holes past
the end, and resize on `length`; a named non-index property on an array
is accepted by JavaScript but is not representable here and is dropped
(no state-manager path ever writes one). -/
def memberWrite (v : JVal) (k : String) (x : JVal) : Option JVal :=
  match v with
  | .obj fields => some (.obj (objSet fields k x))
  | .arr elems =>
    if k = "length" then
      match x with
      | .num n =>
        if 0 ≤ n then
          if n.toNat ≤ elems.length then some (.arr (elems.take n.toNat))
          else some (.arr (elems ++ List.replicate (n.toNat - elems.length) .undefined))
        else none
      | _ => none
    else
      match canonicalIndex k with
      | some i =>
        if i < elems.length then some (.arr (elems.set i x))
        else some (.arr (elems ++ List.replicate (i - elems.length) .undefined ++ [x]))
      | none => some (.arr elems)
  | _ => none

/-- The body of `setStateProperty`: walk to the parent of the final
segment with plain member reads (a throw anywhere aborts the walk), then
assign the final segment, rebuilding the tree along the path.  `none` is
a thrown `TypeError`: neither persistence nor notification happens. -/
def setPath (v : JVal) : List String → JVal → Option JVal
  | [], _ => none
  | [k], x => memberWrite v k x
  | k :: k2 :: ks, x =>
    match memberRead v k with
    | none => none
    | some child =>
      match setPath child (k2 :: ks) x with
      | none => none
      | some child2 => memberWrite v k child2

/-- Source `setStateProperty(path, value)` together with its observable
persist-and-notify count: on success the state is updated and exactly
one `saveState(); notifyListeners()` cycle runs; a throw during the
descent or the assignment leaves the state and the listeners untouched.
The first component is `none` when the call threw. -/
def setStatePropertyOp (state : JVal) (path : String) (value : JVal) :
    Option JVal × Nat :=
  match setPath state (jsSplitDot path) value with
  | none => (none, 0)
  | some state2 => (some state2, 1)

mutual

/-- JavaScript `String(v)` for the values of the model (array elements
convert recursively, with `undefined` and `null` becoming the empty
string inside a join). -/
def jsToString : JVal → String
  | .undefined => "undefined"
  | .null => "null"
  | .nan => "NaN"
  | .bool b => if b then "true" else "false"
  | .num n => toString n
  | .str s => s
  | .arr elems => jsJoinList elems
  | .obj _ => "[object Object]"

/-- Source `Array.prototype.join(",")` over converted elements. -/
def jsJoinList : List JVal → String
  | [] => ""
  | [e] => jsJoinElem e
  | e :: e2 :: rest => jsJoinElem e ++ "," ++ jsJoinList (e2 :: rest)

/-- Element conversion inside `Array.prototype.join`. -/
def jsJoinElem : JVal → String
  | .undefined => ""
  | .null => ""
  | v => jsToString v

end

/-- JavaScript `v + 1`: numeric addition after primitive coercion for
numbers, booleans and `null`; `NaN` for `undefined` and `NaN`; string
concatenation when the left operand converts to a string. -/
def jsAddOne : JVal → JVal
  | .num n => .num (n + 1)
  | .bool b => .num (if b then 2 else 1)
  | .null => .num 1
  | .undefined => .nan
  | .nan => .nan
  | .str s => .str (s ++ "1")
  | .arr elems => .str (jsToString (.arr elems) ++ "1")
  | .obj fields => .str (jsToString (.obj fields) ++ "1")

/-- JavaScript `!v`: `true` exactly on the falsy values. -/
def jsNot : JVal → Bool
  | .undefined => true
  | .null => true
  | .nan => true
  | .bool b => !b
  | .num n => n = 0
  | .str s => s = ""
  | .arr _ => false
  | .obj _ => false

/-- Source `setCameraAngle(angle)`: one `setStateProperty` call. -/
def setCameraAngle (state : JVal) (angle : JVal) : Option JVal × Nat :=
  setStatePropertyOp state "scene.currentCameraAngle" angle

/-- Source `setSelectedObjectId(id)`: one `setStateProperty` call. -/
def setSelectedObjectId (state : JVal) (id : JVal) : Option JVal × Nat :=
  setStatePropertyOp state "objects.selectedObjectId" id

/-- Source `incrementObjectCount()`: a read followed by two `setStateProperty`
calls, the second operating on the state left by the first; each
successful set runs its own persist-and-notify cycle. -/
def incrementObjectCount (state : JVal) : Option JVal × Nat :=
  let currentCount := getStateProperty state "objects.objectCount"
  match setStatePropertyOp state "objects.objectCount" (jsAddOne currentCount) with
  | (none, c1) => (none, c1)
  | (some s1, c1) =>
    let total := getStateProperty s1 "objects.totalObjectsCreated"
    match setStatePropertyOp s1 "objects.totalObjectsCreated" (jsAddOne total) with
    | (none, c2) => (none, c1 + c2)
    | (some s2, c2) => (some s2, c1 + c2)

/-- Source `setCurrentLayerId(id)`: two `setStateProperty` calls
(`layers.currentLayerId`, then `layers.lastActiveLayer`). -/
def setCurrentLayerId (state : JVal) (id : JVal) : Option JVal × Nat :=
  match setStatePropertyOp state "layers.currentLayerId" id with
  | (none, c1) => (none, c1)
  | (some s1, c1) =>
    match setStatePropertyOp s1 "layers.lastActiveLayer" id with
    | (none, c2) => (none, c1 + c2)
    | (some s2, c2) => (some s2, c1 + c2)

/-- Source `setCurrentTool(toolName)`: two `setStateProperty` calls
(`tools.currentTool`, then `tools.lastUsedTool`). -/
def setCurrentTool (state : JVal) (toolName : JVal) : Option JVal × Nat :=
  match setStatePropertyOp state "tools.currentTool" toolName with
  | (none, c1) => (none, c1)
  | (some s1, c1) =>
    match setStatePropertyOp s1 "tools.lastUsedTool" toolName with
    | (none, c2) => (none, c1 + c2)
    | (some s2, c2) => (some s2, c1 + c2)

/-- Source `togglePanelVisibility(panelName)`: one read of
`ui.${panelName}Visible` and one `setStateProperty` call writing the
negated flag. -/
def togglePanelVisibility (state : JVal) (panelName : String) :
    Option JVal × Nat :=
  let currentVisibility := getStateProperty state ("ui." ++ panelName ++ "Visible")
  setStatePropertyOp state ("ui." ++ panelName ++ "Visible")
    (.bool (jsNot currentVisibility))

/-- Source `toggleSnapToGrid()`: one read of `tools.snapToGrid` and one
`setStateProperty` call writing the negated flag. -/
def toggleSnapToGrid (state : JVal) : Option JVal × Nat :=
  let currentSnap := getStateProperty state "tools.snapToGrid"
  setStatePropertyOp state "tools.snapToGrid" (.bool (jsNot currentSnap))

/-- Source `getDefaultState()`, parameterized by the construction-time
`new Date().toISOString()` value. -/
def getDefaultState (sessionStartTime : String) : JVal :=
  .obj
    [ ("scene", .obj
        [ ("backgroundColor", .str "#808080")
        , ("currentCameraAngle", .num 0)
        , ("cameraPosition", .obj [("x", .num 20), ("y", .num 20), ("z", .num 20)])
        , ("gridVisible", .bool true)
        , ("axesVisible", .bool true) ])
    , ("objects", .obj
        [ ("selectedObjectId", .null)
        , ("lastCreatedObjectType", .null)
        , ("objectCount", .num 0)
        , ("totalObjectsCreated", .num 0) ])
    , ("layers", .obj
        [ ("currentLayerId", .num 1)
        , ("layerCount", .num 1)
        , ("lastActiveLayer", .num 1) ])
    , ("ui", .obj
        [ ("sidebarVisible", .bool true)
        , ("propertiesPanelVisible", .bool false)
        , ("layersPanelExpanded", .bool true)
        , ("objectsPanelExpanded", .bool true)
        , ("cameraPanelExpanded", .bool true)
        , ("scenePanelExpanded", .bool true)
        , ("activeTab", .str "objects") ])
    , ("tools", .obj
        [ ("currentTool", .str "select")
        , ("lastUsedTool", .str "select")
        , ("dragModeActive", .bool false)
        , ("snapToGrid", .bool true)
        , ("gridSize", .num 1) ])
    , ("preferences", .obj
        [ ("theme", .str "dark")
        , ("language", .str "en")
        , ("showTutorial", .bool true)
        , ("autoSave", .bool false)
        , ("saveInterval", .num 300)
        , ("showGrid", .bool true)
        , ("showAxes", .bool true)
        , ("defaultObjectColor", .str "#ffffff") ])
    , ("session", .obj
        [ ("lastSaveTime", .null)
        , ("sessionStartTime", .str sessionStartTime)
        , ("unsavedChanges", .bool false)
        , ("projectName", .str "Untitled Project")
        , ("projectDescription", .str "") ])
    , ("recentFiles", .obj
        [ ("files", .arr [])
        , ("maxRecentFiles", .num 5) ])
    , ("history", .obj
        [ ("undoStack", .arr [])
        , ("redoStack", .arr [])
        , ("maxHistorySize", .num 50) ])
    , ("performance", .obj
        [ ("lastFrameTime", .num 0)
        , ("averageFPS", .num 60)
        , ("objectCount", .num 0)
        , ("polygonCount", .num 0)
        , ("memoryUsage", .num 0) ]) ]

/-!
The history component (`history.undoStack` / `history.redoStack` /
`history.maxHistorySize` in the state tree).  `addToHistory`, `undo` and
`redo` read the `history` section, mutate its stacks in place and write
the section back through `updateState`; their observable effect on the
section is modelled directly.  Action records are free-form tagged data,
so the entry type is a parameter. -/
structure History (α : Type) where
  undoStack : List α
  redoStack : List α
  maxHistorySize : Int
deriving DecidableEq, Repr

/-- Source `addToHistory(action)`: `undoStack.push(action)`; one `shift()` when
the new length exceeds `maxHistorySize`; `redoStack = []`. -/
def addToHistory {α : Type} (h : History α) (action : α) : History α :=
  let undo1 := h.undoStack ++ [action]
  let undo2 :=
    if (undo1.length : Int) > h.maxHistorySize then undo1.drop 1 else undo1
  { undoStack := undo2, redoStack := [], maxHistorySize := h.maxHistorySize }

/-- Source `undo()`: when `undoStack` is non-empty, `pop()` its last entry,
`push` it onto `redoStack` and return it; otherwise return `null` with
no mutation. -/
def undo {α : Type} (h : History α) : History α × Option α :=
  match h.undoStack.getLast? with
  | some action =>
    ({ undoStack := h.undoStack.dropLast
       redoStack := h.redoStack ++ [action]
       maxHistorySize := h.maxHistorySize }, some action)
  | none => (h, none)

/-- Source `redo()`: symmetric to `undo`. -/
def redo {α : Type} (h : History α) : History α × Option α :=
  match h.redoStack.getLast? with
  | some action =>
    ({ undoStack := h.undoStack ++ [action]
       redoStack := h.redoStack.dropLast
       maxHistorySize := h.maxHistorySize }, some action)
  | none => (h, none)

/-- Modelled from the spec: the most recent `n` entries of a list, in
order (the whole list when it is shorter than `n`). -/
def takeLastInt {α : Type} (n : Int) (l : List α) : List α :=
  l.drop (l.length - n.toNat)

/-- Modelled from the spec: `addToHistory` as the claim states it — the
new stack keeps exactly the most recent `maxHistorySize` entries of the
appended stack, and the redo stack is emptied. -/
def specAddToHistory {α : Type} (h : History α) (action : α) : History α :=
  { undoStack := takeLastInt h.maxHistorySize (h.undoStack ++ [action])
    redoStack := []
    maxHistorySize := h.maxHistorySize }

/-- One public `LayerManager` operation, as invoked by the UI layer. -/
inductive Op where
  | addLayer (name : Option String)
  | removeLayer (id : Int)
  | renameLayer (id : Int) (newName : String)
  | setCurrentLayer (id : Int)
  | addObjectToCurrentLayer (o : Obj)
  | removeObjectFromLayer (o : Obj)
  | moveObjectToLayer (o : Obj) (id : Int)
  | reorderLayers (ids : List Int)
  | moveLayerUp (id : Int)
  | moveLayerDown (id : Int)
  | toggleLayerVisibility (id : Int)
deriving DecidableEq, Repr

/-- The state after one public operation.  When the call throws, the
state is the one at the moment of the throw (partial mutation kept); the
layer-manager object itself survives the exception. -/
def applyOp (m : LM) : Op → LM
  | .addLayer name => (addLayer m name).1
  | .removeLayer id => (removeLayer m id).1
  | .renameLayer id newName => (renameLayer m id newName).1
  | .setCurrentLayer id => (setCurrentLayer m id).1
  | .addObjectToCurrentLayer o => (addObjectToCurrentLayer m o).1
  | .removeObjectFromLayer o => (removeObjectFromLayer m o).1
  | .moveObjectToLayer o id => (moveObjectToLayer m o id).1
  | .reorderLayers ids => (reorderLayers m ids).1
  | .moveLayerUp id => (moveLayerUp m id).1
  | .moveLayerDown id => (moveLayerDown m id).1
  | .toggleLayerVisibility id => (toggleLayerVisibility m id).1

/-- The state reached from `m` by a sequence of public operations. -/
def runOps (m : LM) (ops : List Op) : LM :=
  ops.foldl applyOp m

/-- The ids of the actual layers in an array (holes contribute
nothing). -/
def someIds (ls : List (Option Layer)) : List Int :=
  ls.filterMap (fun ol => ol.map Layer.id)

/-- Whether some actual layer carries the current id. -/
def currentRefersToLayer (m : LM) : Bool :=
  m.layers.any (fun ol =>
    match ol with
    | some l => l.id = m.currentLayerId
    | none => false)

/-- Whether at least one actual layer exists. -/
def hasSomeLayer (m : LM) : Bool :=
  m.layers.any (fun ol => ol.isSome)

/-- Helper: a list whose last element is known decomposes as
`dropLast ++ [last]`. -/
theorem dropLast_append_of_getLast? {α : Type} :
    ∀ (l : List α) (a : α), l.getLast? = some a → l.dropLast ++ [a] = l := by
  intro l a h
  obtain ⟨ys, rfl⟩ := List.getLast?_eq_some_iff.1 h
  simp

/-- C1: on the initial single-layer store, `moveLayerDown` with an id
matching no layer returns `true` and overwrites the first layer slot
with `undefined`, instead of returning `false` with no mutation as the
claim states: `findIndex` yields `-1`, `-1 < layers.length - 1` holds,
and the "swap" writes `layers[0] = layers[-1]`. -/
theorem moveLayerDown_unknown_id_corrupts :
    moveLayerDown initLM 99 =
      ({ layers := [none], currentLayerId := 1, nextLayerId := 2 }, .ok true) ∧
    ({ layers := [none], currentLayerId := 1, nextLayerId := 2 } : LM) ≠ initLM :=
  ⟨rfl, by decide⟩

/-- C4: the public-operation sequence `[moveLayerDown 99]` run from the
initial state leaves a store with no actual layer at all, so both the
at-least-one-layer invariant and the currentLayerId-refers-to-an-
existing-layer invariant fail after a public operation. -/
theorem layer_invariants_broken_by_moveLayerDown :
    runOps initLM [Op.moveLayerDown 99] =
      { layers := [none], currentLayerId := 1, nextLayerId := 2 } ∧
    hasSomeLayer { layers := [none], currentLayerId := 1, nextLayerId := 2 } = false ∧
    currentRefersToLayer { layers := [none], currentLayerId := 1, nextLayerId := 2 } = false :=
  ⟨rfl, rfl, rfl⟩

/-- C5 counterexample: with `maxHistorySize = 1` and three stacked
entries, `addToHistory` evicts only one entry, so the resulting stack
`[20, 30, 40]` is not the most recent one entry `[40]` the claim
promises. -/
theorem addToHistory_not_most_recent_entries :
    addToHistory (α := Int) ⟨[10, 20, 30], [99], 1⟩ 40 ≠
      specAddToHistory ⟨[10, 20, 30], [99], 1⟩ 40 := by
  decide

/-- C5 amended: `addToHistory` appends the action, evicts exactly one
oldest entry when the new length exceeds `maxHistorySize`, and
unconditionally empties `redoStack`; whenever the prior stack length is
at most `maxHistorySize` (true in particular for every history reachable
with a fixed cap), the result keeps exactly the most recent
`maxHistorySize` entries in order. -/
theorem addToHistory_spec_within_cap {α : Type} (h : History α) (a : α) :
    (addToHistory h a).redoStack = [] ∧
    (addToHistory h a).maxHistorySize = h.maxHistorySize ∧
    ((h.undoStack.length : Int) ≤ h.maxHistorySize →
      addToHistory h a = specAddToHistory h a) := by
  refine ⟨rfl, rfl, fun hle => ?_⟩
  unfold addToHistory specAddToHistory takeLastInt
  simp only [List.length_append, List.length_cons, List.length_nil]
  by_cases hc : ((h.undoStack.length + 1 : Int)) > h.maxHistorySize
  · have hmax : (h.undoStack.length + 1) - h.maxHistorySize.toNat = 1 := by omega
    simp only [Nat.cast_add, Nat.cast_one, hc, if_pos, hmax]
    simp [hc]
  · have hmax : (h.undoStack.length + 1) - h.maxHistorySize.toNat = 0 := by omega
    simp only [hmax]
    simp [hc]

/-- C5 witness: a concrete within-cap call agrees with the most-recent
specification. -/
theorem addToHistory_spec_within_cap_witness :
    ((([1, 2] : List Int)).length : Int) ≤ 50 ∧
    addToHistory (α := Int) ⟨[1, 2], [5], 50⟩ 3 =
      specAddToHistory ⟨[1, 2], [5], 50⟩ 3 :=
  ⟨by decide, (addToHistory_spec_within_cap ⟨[1, 2], [5], 50⟩ 3).2.2 (by decide)⟩

/-- C6: on a non-empty `undoStack`, `undo` pops the most recent entry,
pushes it onto `redoStack` and returns it, and an immediate `redo`
restores both stacks exactly; on an empty `undoStack`, `undo` returns
`null` without mutation, and symmetrically for `redo` on an empty
`redoStack`. -/
theorem undo_then_redo_restores {α : Type} (h : History α) :
    (h.undoStack = [] → undo h = (h, none)) ∧
    (∀ a, h.undoStack.getLast? = some a →
      undo h = ({ undoStack := h.undoStack.dropLast
                  redoStack := h.redoStack ++ [a]
                  maxHistorySize := h.maxHistorySize }, some a) ∧
      redo (undo h).1 = (h, some a)) ∧
    (h.redoStack = [] → redo h = (h, none)) := by
  obtain ⟨u, r, mx⟩ := h
  refine ⟨fun hu => ?_, fun a ha => ?_, fun hr => ?_⟩
  · subst hu; rfl
  · simp only at ha
    constructor
    · unfold undo
      simp [ha]
    · unfold undo redo
      simp only [ha]
      simp only [List.getLast?_concat, List.dropLast_concat]
      rw [dropLast_append_of_getLast? u a ha]
  · subst hr; rfl

/-- C6 witness: a concrete undo-redo round trip. -/
theorem undo_then_redo_restores_witness :
    undo (α := Int) ⟨[1, 2], [9], 50⟩ = (⟨[1], [9, 2], 50⟩, some 2) ∧
    redo (undo (α := Int) ⟨[1, 2], [9], 50⟩).1 = (⟨[1, 2], [9], 50⟩, some 2) :=
  (undo_then_redo_restores (α := Int) ⟨[1, 2], [9], 50⟩).2.1 2 rfl

/-- On a well-formed layer array, the visibility filter never throws and
keeps exactly the visible layers, in order. -/
theorem visibleFilterGo_wf (ls : List Layer) :
    visibleFilterGo (ls.map some) =
      .ok ((ls.filter (fun l => l.visible)).map some) := by
  induction ls with
  | nil => rfl
  | cons l rest ih =>
    simp only [List.map_cons, visibleFilterGo, ih, List.filter_cons]
    cases hv : l.visible <;> simp [hv]

/-- On a well-formed layer array, the flat concatenation never throws
and is the flattening of the per-layer object lists, in order. -/
theorem allObjectsGo_wf (ls : List Layer) :
    allObjectsGo (ls.map some) = .ok ((ls.map Layer.objects).flatten) := by
  induction ls with
  | nil => rfl
  | cons l rest ih => simp [allObjectsGo, ih]

/-- C7: for every store state and every combination of visibility flags,
`getVisibleObjects` equals `getAllObjects` of the store restricted to
its visible layers, and both are the layer-ordered, insertion-ordered
concatenation of the visible layers' objects. -/
theorem getVisibleObjects_eq_getAllObjects_visible (ls : List Layer)
    (cur next : Int) :
    getVisibleObjects (wfLM ls cur next) =
      getAllObjects (wfLM (ls.filter (fun l => l.visible)) cur next) ∧
    getVisibleObjects (wfLM ls cur next) =
      .ok (((ls.filter (fun l => l.visible)).map Layer.objects).flatten) := by
  have h1 : getVisibleObjects (wfLM ls cur next) =
      .ok (((ls.filter (fun l => l.visible)).map Layer.objects).flatten) := by
    unfold getVisibleObjects wfLM
    simp only [visibleFilterGo_wf, allObjectsGo_wf]
  refine ⟨?_, h1⟩
  unfold getAllObjects wfLM
  simp only [allObjectsGo_wf]
  exact h1

/-- On a well-formed layer array containing a matching layer, the index
search succeeds with an index at or above its starting index. -/
theorem findIndexByIdAux_wf_found (lid : Int) :
    ∀ (ls : List Layer) (i : Int), (∃ l ∈ ls, l.id = lid) →
      ∃ k, findIndexByIdAux (ls.map some) lid i = .ok k ∧ i ≤ k := by
  intro ls
  induction ls with
  | nil => rintro i ⟨l, hl, _⟩; cases hl
  | cons l rest ih =>
    rintro i ⟨l0, hl0, hid⟩
    simp only [List.map_cons, findIndexByIdAux]
    by_cases hcase : l.id = lid
    · exact ⟨i, by simp [hcase], le_refl i⟩
    · rcases List.mem_cons.mp hl0 with h | h
      · exact absurd (h ▸ hid) hcase
      · obtain ⟨k, hk, hik⟩ := ih (i + 1) ⟨l0, h, hid⟩
        exact ⟨k, by simp [hcase, hk], by omega⟩

/-- On a well-formed layer array, the fallback search of `removeLayer`
is the first layer whose id differs from the removed one. -/
theorem findFirstOtherId_wf (lid : Int) :
    ∀ ls : List Layer,
      findFirstOtherId (ls.map some) lid =
        .ok (ls.find? (fun l => l.id != lid)) := by
  intro ls
  induction ls with
  | nil => rfl
  | cons l rest ih =>
    simp only [List.map_cons, findFirstOtherId, List.find?]
    by_cases hcase : l.id = lid
    · simp [hcase, ih]
    · have hb : (l.id != lid) = true := bne_iff_ne.mpr hcase
      simp [hcase, hb]

/-- C10: when `removeLayer` succeeds on a store with at least two layers,
removing the current layer re-points `currentLayerId` at the id of the
first layer in the current order whose id differs from the removed id,
while removing a non-current layer leaves `currentLayerId` unchanged;
the call returns `true` in both cases. -/
theorem removeLayer_current_fallback (ls : List Layer) (cur next lid : Int)
    (hlen : 2 ≤ ls.length) (hmem : ∃ l ∈ ls, l.id = lid) :
    (lid = cur → ∀ fb, ls.find? (fun l => l.id != lid) = some fb →
      (removeLayer (wfLM ls cur next) lid).1.currentLayerId = fb.id ∧
      (removeLayer (wfLM ls cur next) lid).2 = .ok true) ∧
    (lid ≠ cur →
      (removeLayer (wfLM ls cur next) lid).1.currentLayerId = cur ∧
      (removeLayer (wfLM ls cur next) lid).2 = .ok true) := by
  obtain ⟨k, hk, hk0⟩ := findIndexByIdAux_wf_found lid ls 0 hmem
  have hidx : findIndexById (ls.map some) lid = .ok k := hk
  have hlen2 : ¬ (ls.map some).length ≤ 1 := by
    simp only [List.length_map]; omega
  have hlen1 : ¬ ls.length ≤ 1 := by omega
  have hkne : ¬ k = -1 := by omega
  constructor
  · intro hcur fb hfb
    subst hcur
    unfold removeLayer wfLM
    simp [hlen2, hlen1, hidx, hkne, findFirstOtherId_wf, hfb]
  · intro hcur
    unfold removeLayer wfLM
    simp [hlen2, hlen1, hidx, hkne, hcur]

/-- C10 witness: removing the current layer 1 from a two-layer store
makes layer 2 (the first remaining layer) current. -/
theorem removeLayer_current_fallback_witness :
    (2 ≤ ([⟨1, "a", true, []⟩, ⟨2, "b", true, []⟩] : List Layer).length) ∧
    (removeLayer (wfLM [⟨1, "a", true, []⟩, ⟨2, "b", true, []⟩] 1 3) 1).1.currentLayerId = 2 ∧
    (removeLayer (wfLM [⟨1, "a", true, []⟩, ⟨2, "b", true, []⟩] 1 3) 1).2 = .ok true := by
  refine ⟨by decide, ?_⟩
  have h := removeLayer_current_fallback
    [⟨1, "a", true, []⟩, ⟨2, "b", true, []⟩] 1 3 1
    (by decide) ⟨⟨1, "a", true, []⟩, by simp, rfl⟩
  exact h.1 rfl ⟨2, "b", true, []⟩ rfl

/-- On a well-formed layer array the removal loop never throws, and a
successful removal leaves a well-formed array whose layers carry the
same ids in the same order. -/
theorem removeObjLayersGo_wf (target : Int) :
    ∀ ls : List Layer,
      removeObjLayersGo (ls.map some) target = .ok none ∨
      ∃ ls2 : List Layer,
        removeObjLayersGo (ls.map some) target = .ok (some (ls2.map some)) ∧
        ls2.map Layer.id = ls.map Layer.id := by
  intro ls
  induction ls with
  | nil => exact Or.inl rfl
  | cons l rest ih =>
    simp only [List.map_cons, removeObjLayersGo]
    cases hro : removeObjFromObjects l.objects target with
    | some objs2 =>
      refine Or.inr ⟨{ l with objects := objs2 } :: rest, ?_, by simp⟩
      simp
    | none =>
      rcases ih with hnone | ⟨ls2, hsome, hids⟩
      · rw [hnone]; exact Or.inl rfl
      · rw [hsome]
        exact Or.inr ⟨l :: ls2, by simp, by simp [hids]⟩

/-- On a well-formed layer array with no layer carrying the target id,
`find` returns `undefined` without throwing. -/
theorem findById_wf_missing (target : Int) :
    ∀ ls : List Layer, (∀ l ∈ ls, l.id ≠ target) →
      findById (ls.map some) target = .ok none := by
  intro ls
  induction ls with
  | nil => intro _; rfl
  | cons l rest ih =>
    intro hall
    have hl : l.id ≠ target := hall l (by simp)
    simp only [List.map_cons, findById, hl, if_false]
    exact ih (fun l2 hl2 => hall l2 (by simp [hl2]))

/-- C2 counterexample: moving the only object of the only layer to the
nonexistent layer 99 returns `false`, yet the store has changed — the
object is gone from its source layer. -/
theorem moveObjectToLayer_missing_target_mutates :
    (moveObjectToLayer (wfLM [⟨1, "Layer 1", true, [⟨7, 0⟩]⟩] 1 2) ⟨7, 0⟩ 99).2 =
      .ok false ∧
    (moveObjectToLayer (wfLM [⟨1, "Layer 1", true, [⟨7, 0⟩]⟩] 1 2) ⟨7, 0⟩ 99).1 ≠
      wfLM [⟨1, "Layer 1", true, [⟨7, 0⟩]⟩] 1 2 :=
  ⟨rfl, by decide⟩

/-- C2 amended: when the target id matches no layer,
`moveObjectToLayer` returns `false`, and the resulting state is exactly
the state left by the initial `removeObjectFromLayer` — the handle's
first matching occurrence has already been removed; only when the
handle is in no layer is the state unchanged. -/
theorem moveObjectToLayer_missing_target (ls : List Layer) (cur next : Int)
    (o : Obj) (tid : Int) (htid : ∀ l ∈ ls, l.id ≠ tid) :
    moveObjectToLayer (wfLM ls cur next) o tid =
      ((removeObjectFromLayer (wfLM ls cur next) o).1, .ok false) := by
  unfold moveObjectToLayer removeObjectFromLayer wfLM
  rcases removeObjLayersGo_wf o.userDataId ls with hnone | ⟨ls2, hsome, hids⟩
  · simp only [hnone]
    rw [findById_wf_missing tid ls htid]
  · simp only [hsome]
    have htid2 : ∀ l ∈ ls2, l.id ≠ tid := by
      intro l hl
      have : l.id ∈ ls2.map Layer.id := List.mem_map_of_mem Layer.id hl
      rw [hids] at this
      obtain ⟨l0, hl0, hid0⟩ := List.mem_map.mp this
      exact hid0 ▸ htid l0 hl0
    rw [findById_wf_missing tid ls2 htid2]

/-- C2 witness: a concrete missing-target call equals remove-then-false. -/
theorem moveObjectToLayer_missing_target_witness :
    (∀ l ∈ ([⟨1, "Layer 1", true, [⟨7, 0⟩]⟩] : List Layer), l.id ≠ 99) ∧
    moveObjectToLayer (wfLM [⟨1, "Layer 1", true, [⟨7, 0⟩]⟩] 1 2) ⟨7, 0⟩ 99 =
      ((removeObjectFromLayer (wfLM [⟨1, "Layer 1", true, [⟨7, 0⟩]⟩] 1 2) ⟨7, 0⟩).1,
        .ok false) :=
  ⟨by decide,
    moveObjectToLayer_missing_target [⟨1, "Layer 1", true, [⟨7, 0⟩]⟩] 1 2 ⟨7, 0⟩ 99
      (by decide)⟩

/-- A key absent from an object's fields reads as `undefined`. -/
theorem objGet_of_not_contains (k : String) :
    ∀ fields : List (String × JVal),
      (fields.map Prod.fst).contains k = false → objGet fields k = .undefined := by
  intro fields
  induction fields with
  | nil => intro _; rfl
  | cons p rest ih =>
    intro hc
    simp only [List.map_cons, List.contains_cons, Bool.or_eq_false_iff] at hc
    have hne : ¬ p.1 = k := by
      intro he
      rw [he] at hc
      simp at hc
    obtain ⟨p1, p2⟩ := p
    simp only [objGet, hne, if_false]
    exact ih hc.2

/-- The optional-chained member read agrees with the spec-side member
relation: a present member is returned, everything else reads as
`undefined`. -/
theorem optMember_eq_memberOf (v : JVal) (k : String) :
    optMember v k = (memberOf v k).getD JVal.undefined := by
  cases v with
  | obj fields =>
    cases fields with
    | nil => rfl
    | cons p rest =>
      simp only [optMember, memberOf]
      cases hc : ((p :: rest).map Prod.fst).contains k with
      | true => simp [hc]
      | false => simp [hc, objGet_of_not_contains k (p :: rest) hc]
  | arr elems =>
    simp only [optMember, memberOf]
    by_cases hl : k = "length"
    · simp [hl]
    · simp only [hl, if_false]
      cases hi : canonicalIndex k with
      | some i => simp [List.getD_eq_getElem?_getD]
      | none => rfl
  | str s =>
    simp only [optMember, memberOf]
    by_cases hl : k = "length"
    · simp [hl]
    · simp only [hl, if_false]
      cases hi : canonicalIndex k with
      | some i => cases hgc : s.data[i]? <;> simp [hgc]
      | none => rfl
  | undefined => rfl
  | null => rfl
  | nan => rfl
  | bool b => rfl
  | num n => rfl

/-- Descending from `undefined` stays `undefined` for every remaining
segment. -/
theorem foldl_optMember_undef :
    ∀ ks : List String, List.foldl optMember JVal.undefined ks = JVal.undefined := by
  intro ks
  induction ks with
  | nil => rfl
  | cons k rest ih => simpa [optMember] using ih

/-- C9: `getStateProperty` is total and returns exactly the spec-side
segment-by-segment descent of the tree — the reached member when every
segment resolves, and `undefined` (never an error) as soon as a segment
is missing or an intermediate value is not a container (an object,
array, or string). -/
theorem getStateProperty_is_spec_descent (state : JVal) (path : String) :
    getStateProperty state path = specResolve state (jsSplitDot path) := by
  unfold getStateProperty
  generalize jsSplitDot path = keys
  induction keys generalizing state with
  | nil => rfl
  | cons k rest ih =>
    rw [List.foldl_cons, specResolve]
    cases hm : memberOf state k with
    | some child =>
      have : optMember state k = child := by
        rw [optMember_eq_memberOf, hm]; rfl
      rw [this]
      exact ih child
    | none =>
      have : optMember state k = JVal.undefined := by
        rw [optMember_eq_memberOf, hm]; rfl
      rw [this]
      exact foldl_optMember_undef rest

/-- Whether a value is a plain object. -/
def isObjVal : JVal → Bool
  | .obj _ => true
  | _ => false

/-- Assigning a key and reading it back yields the assigned value. -/
theorem objGet_objSet_same (k : String) (v : JVal) :
    ∀ fields : List (String × JVal), objGet (objSet fields k v) k = v := by
  intro fields
  induction fields with
  | nil => simp [objSet, objGet]
  | cons p rest ih =>
    obtain ⟨p1, p2⟩ := p
    by_cases hp : p1 = k
    · simp [objSet, objGet, hp]
    · simp [objSet, objGet, hp, ih]

/-- A two-segment `setStateProperty` path whose first segment is a
non-numeric key (every section name is one) currently holding a plain
object always succeeds, and the first segment still holds a plain object
afterwards. -/
theorem setPath_pair_ok (s : JVal) (k k2 : String) (x : JVal)
    (hcanon : canonicalIndex k = none)
    (hs : isObjVal (optMember s k) = true) :
    ∃ s2, setPath s [k, k2] x = some s2 ∧ isObjVal (optMember s2 k) = true := by
  cases s with
  | undefined => simp [optMember, isObjVal] at hs
  | null => simp [optMember, isObjVal] at hs
  | nan => simp [optMember, isObjVal] at hs
  | bool b => simp [optMember, isObjVal] at hs
  | num n => simp [optMember, isObjVal] at hs
  | str s0 =>
    exfalso
    simp only [optMember] at hs
    by_cases hl : k = "length"
    · simp [hl, isObjVal] at hs
    · rw [if_neg hl, hcanon] at hs
      simp [isObjVal] at hs
  | arr elems =>
    exfalso
    simp only [optMember] at hs
    by_cases hl : k = "length"
    · simp [hl, isObjVal] at hs
    · rw [if_neg hl, hcanon] at hs
      simp [isObjVal] at hs
  | obj fields0 =>
    simp only [optMember] at hs
    cases hfield : objGet fields0 k with
    | obj fields =>
      refine ⟨.obj (objSet fields0 k (.obj (objSet fields k2 x))), ?_, ?_⟩
      · simp [setPath, memberRead, optMember, hfield, memberWrite]
      · simp [optMember, objGet_objSet_same, isObjVal]
    | undefined => rw [hfield] at hs; simp [isObjVal] at hs
    | null => rw [hfield] at hs; simp [isObjVal] at hs
    | nan => rw [hfield] at hs; simp [isObjVal] at hs
    | bool b => rw [hfield] at hs; simp [isObjVal] at hs
    | num n => rw [hfield] at hs; simp [isObjVal] at hs
    | str s1 => rw [hfield] at hs; simp [isObjVal] at hs
    | arr a => rw [hfield] at hs; simp [isObjVal] at hs

/-- A two-segment `setStateProperty` call on a state whose section is a
plain object runs exactly one persist-and-notify cycle, and leaves the
section a plain object. -/
theorem setStatePropertyOp_pair (s : JVal) (path k k2 : String) (x : JVal)
    (hsplit : jsSplitDot path = [k, k2])
    (hcanon : canonicalIndex k = none)
    (hs : isObjVal (optMember s k) = true) :
    ∃ s2, setStatePropertyOp s path x = (some s2, 1) ∧
      isObjVal (optMember s2 k) = true := by
  obtain ⟨s2, h1, h2⟩ := setPath_pair_ok s k k2 x hcanon hs
  refine ⟨s2, ?_, h2⟩
  unfold setStatePropertyOp
  rw [hsplit, h1]

/-- C3 counterexample: on the default state tree, a single
`incrementObjectCount()` call runs two persist-and-notify cycles — each
subscribed listener is invoked twice and the snapshot written twice —
where the claim requires exactly one. -/
theorem incrementObjectCount_two_cycles :
    (incrementObjectCount (getDefaultState "")).2 = 2 ∧ (2 : Nat) ≠ 1 :=
  ⟨rfl, by decide⟩

/-- C3 amended: convenience setters that write a single property
(`setCameraAngle`, `setSelectedObjectId`, `togglePanelVisibility`,
`toggleSnapToGrid`) run exactly one persist-and-notify cycle per call,
but the setters that write two properties (`incrementObjectCount`,
`setCurrentLayerId`, `setCurrentTool`) run exactly two cycles per call,
one per `setStateProperty` invocation. -/
theorem convenience_setter_cycle_counts (s : JVal)
    (angle selId layerId tool : JVal) (panel : String)
    (hscene : isObjVal (optMember s "scene") = true)
    (hobjects : isObjVal (optMember s "objects") = true)
    (hlayers : isObjVal (optMember s "layers") = true)
    (hui : isObjVal (optMember s "ui") = true)
    (htools : isObjVal (optMember s "tools") = true)
    (hpanel : jsSplitDot ("ui." ++ panel ++ "Visible") = ["ui", panel ++ "Visible"]) :
    (setCameraAngle s angle).2 = 1 ∧
    (setSelectedObjectId s selId).2 = 1 ∧
    (togglePanelVisibility s panel).2 = 1 ∧
    (toggleSnapToGrid s).2 = 1 ∧
    (incrementObjectCount s).2 = 2 ∧
    (setCurrentLayerId s layerId).2 = 2 ∧
    (setCurrentTool s tool).2 = 2 := by
  refine ⟨?_, ?_, ?_, ?_, ?_, ?_, ?_⟩
  · obtain ⟨s2, h1, _⟩ := setStatePropertyOp_pair s "scene.currentCameraAngle"
      "scene" "currentCameraAngle" angle rfl rfl hscene
    unfold setCameraAngle
    rw [h1]
  · obtain ⟨s2, h1, _⟩ := setStatePropertyOp_pair s "objects.selectedObjectId"
      "objects" "selectedObjectId" selId rfl rfl hobjects
    unfold setSelectedObjectId
    rw [h1]
  · obtain ⟨s2, h1, _⟩ := setStatePropertyOp_pair s ("ui." ++ panel ++ "Visible")
      "ui" (panel ++ "Visible")
      (.bool (jsNot (getStateProperty s ("ui." ++ panel ++ "Visible"))))
      hpanel rfl hui
    unfold togglePanelVisibility
    rw [h1]
  · obtain ⟨s2, h1, _⟩ := setStatePropertyOp_pair s "tools.snapToGrid"
      "tools" "snapToGrid" (.bool (jsNot (getStateProperty s "tools.snapToGrid")))
      rfl rfl htools
    unfold toggleSnapToGrid
    rw [h1]
  · obtain ⟨s1, h1, hobj1⟩ := setStatePropertyOp_pair s "objects.objectCount"
      "objects" "objectCount"
      (jsAddOne (getStateProperty s "objects.objectCount")) rfl rfl hobjects
    obtain ⟨s2, h2, _⟩ := setStatePropertyOp_pair s1 "objects.totalObjectsCreated"
      "objects" "totalObjectsCreated"
      (jsAddOne (getStateProperty s1 "objects.totalObjectsCreated")) rfl rfl hobj1
    unfold incrementObjectCount
    simp [h1, h2]
  · obtain ⟨s1, h1, hobj1⟩ := setStatePropertyOp_pair s "layers.currentLayerId"
      "layers" "currentLayerId" layerId rfl rfl hlayers
    obtain ⟨s2, h2, _⟩ := setStatePropertyOp_pair s1 "layers.lastActiveLayer"
      "layers" "lastActiveLayer" layerId rfl rfl hobj1
    unfold setCurrentLayerId
    simp [h1, h2]
  · obtain ⟨s1, h1, hobj1⟩ := setStatePropertyOp_pair s "tools.currentTool"
      "tools" "currentTool" tool rfl rfl htools
    obtain ⟨s2, h2, _⟩ := setStatePropertyOp_pair s1 "tools.lastUsedTool"
      "tools" "lastUsedTool" tool rfl rfl hobj1
    unfold setCurrentTool
    simp [h1, h2]

/-- C3 witness: cycle counts at the default state tree. -/
theorem convenience_setter_cycle_counts_witness :
    (setCameraAngle (getDefaultState "") (.num 90)).2 = 1 ∧
    (incrementObjectCount (getDefaultState "")).2 = 2 ∧
    (setCurrentLayerId (getDefaultState "") (.num 2)).2 = 2 := by
  have h := convenience_setter_cycle_counts (getDefaultState "")
    (.num 90) .null (.num 2) (.str "move") "propertiesPanel"
    rfl rfl rfl rfl rfl rfl
  exact ⟨h.1, h.2.2.2.2.1, h.2.2.2.2.2.1⟩

/-- Distinctness and boundedness of layer ids transfer along a
sub-permutation of the id list. -/
theorem idsOK_transfer {ids1 ids2 : List Int} {next : Int}
    (hsub : List.Subperm ids2 ids1)
    (hnd : ids1.Nodup) (hb : ∀ i ∈ ids1, i < next) :
    ids2.Nodup ∧ ∀ i ∈ ids2, i < next := by
  obtain ⟨l, hperm, hsubl⟩ := hsub
  exact ⟨hperm.nodup (hsubl.nodup hnd),
    fun i hi => hb i (hsubl.subset (hperm.symm.subset hi))⟩

/-- Updating a layer in place with an id-preserving function keeps the
id list unchanged. -/
theorem someIds_updateFirstById (target : Int) (f : Layer → Layer)
    (hf : ∀ l, (f l).id = l.id) :
    ∀ ls : List (Option Layer),
      someIds (updateFirstById ls target f) = someIds ls := by
  intro ls
  induction ls with
  | nil => rfl
  | cons ol rest ih =>
    cases ol with
    | none => simpa [updateFirstById, someIds] using ih
    | some l =>
      by_cases hcase : l.id = target
      · simp [updateFirstById, hcase, someIds, hf]
      · simpa [updateFirstById, hcase, someIds] using ih

/-- A successful object removal keeps the id list unchanged. -/
theorem someIds_removeObjLayersGo (target : Int) :
    ∀ (ls ls2 : List (Option Layer)),
      removeObjLayersGo ls target = .ok (some ls2) → someIds ls2 = someIds ls := by
  intro ls
  induction ls with
  | nil => intro ls2 h; cases h
  | cons ol rest ih =>
    intro ls2 h
    cases ol with
    | none => cases h
    | some l =>
      simp only [removeObjLayersGo] at h
      cases hro : removeObjFromObjects l.objects target with
      | some objs2 =>
        rw [hro] at h
        cases h
        simp [someIds]
      | none =>
        rw [hro] at h
        cases hrest : removeObjLayersGo rest target with
        | threw => rw [hrest] at h; cases h
        | ok r =>
          cases r with
          | none => rw [hrest] at h; cases h
          | some rest2 =>
            rw [hrest] at h
            cases h
            have h2 := ih rest2 hrest
            simp only [someIds] at h2 ⊢
            simp [h2]

/-- Swapping two adjacent elements by double assignment (the
`moveLayerUp` order) permutes the list. -/
theorem set_swap_up_perm {α : Type} (d : α) :
    ∀ (j : Nat) (ls : List α), j + 1 < ls.length →
      List.Perm ((ls.set j (ls.getD (j + 1) d)).set (j + 1) (ls.getD j d)) ls := by
  intro j
  induction j with
  | zero =>
    intro ls hlen
    match ls, hlen with
    | a :: b :: t, _ =>
      simp only [List.getD, List.set]
      exact List.Perm.swap a b t
  | succ j ih =>
    intro ls hlen
    match ls, hlen with
    | a :: t, hlen =>
      have ht : j + 1 < t.length := by
        simp only [List.length_cons] at hlen; omega
      simpa [List.set, List.getD] using (ih t ht).cons a

/-- Swapping two adjacent elements by double assignment (the
`moveLayerDown` order) permutes the list. -/
theorem set_swap_down_perm {α : Type} (d : α) :
    ∀ (j : Nat) (ls : List α), j + 1 < ls.length →
      List.Perm ((ls.set (j + 1) (ls.getD j d)).set j (ls.getD (j + 1) d)) ls := by
  intro j
  induction j with
  | zero =>
    intro ls hlen
    match ls, hlen with
    | a :: b :: t, _ =>
      simp only [List.getD, List.set]
      exact List.Perm.swap a b t
  | succ j ih =>
    intro ls hlen
    match ls, hlen with
    | a :: t, hlen =>
      have ht : j + 1 < t.length := by
        simp only [List.length_cons] at hlen; omega
      simpa [List.set, List.getD] using (ih t ht).cons a

/-- A successful `findIndex` returns `-1` or an index in range,
relative to the starting index of the scan. -/
theorem findIndexByIdAux_ok_bound (target : Int) :
    ∀ (ls : List (Option Layer)) (i k : Int), 0 ≤ i →
      findIndexByIdAux ls target i = .ok k →
      k = -1 ∨ (i ≤ k ∧ (k - i).toNat < ls.length) := by
  intro ls
  induction ls with
  | nil =>
    intro i k _ h
    cases h
    exact Or.inl rfl
  | cons ol rest ih =>
    intro i k hi h
    cases ol with
    | none => cases h
    | some l =>
      simp only [findIndexByIdAux] at h
      by_cases hcase : l.id = target
      · rw [if_pos hcase] at h
        cases h
        right
        constructor
        · omega
        · simp only [List.length_cons]; omega
      · rw [if_neg hcase] at h
        rcases ih (i + 1) k (by omega) h with h1 | ⟨h1, h2⟩
        · exact Or.inl h1
        · right
          constructor
          · omega
          · simp only [List.length_cons]; omega

/-- A successful id map means the array is well formed, and the result
is its id list. -/
theorem mapIds_ok_wf :
    ∀ (ls : List (Option Layer)) (ids : List Int), mapIds ls = .ok ids →
      ∃ ls0 : List Layer, ls = ls0.map some ∧ ids = ls0.map Layer.id := by
  intro ls
  induction ls with
  | nil =>
    intro ids h
    cases h
    exact ⟨[], rfl, rfl⟩
  | cons ol rest ih =>
    intro ids h
    cases ol with
    | none => cases h
    | some l =>
      simp only [mapIds] at h
      cases hrest : mapIds rest with
      | threw => rw [hrest] at h; cases h
      | ok ids2 =>
        rw [hrest] at h
        cases h
        obtain ⟨ls0, hls0, hids0⟩ := ih ids2 hrest
        exact ⟨l :: ls0, by simp [hls0], by simp [hids0]⟩

/-- On a well-formed array, `find` by id never throws and returns the
first match. -/
theorem findById_wf_char (target : Int) :
    ∀ ls0 : List Layer,
      findById (ls0.map some) target =
        .ok (ls0.find? (fun l => l.id == target)) := by
  intro ls0
  induction ls0 with
  | nil => rfl
  | cons l rest ih =>
    simp only [List.map_cons, findById, List.find?]
    by_cases hcase : l.id = target
    · simp [hcase]
    · have hb : (l.id == target) = false := by
        simp [hcase]
      simp [hcase, hb, ih]

/-- On a well-formed array, the rebuild map of `reorderLayers` never
throws, and the ids of its result are the requested ids that exist,
in requested order. -/
theorem mapFind_wf (ls0 : List Layer) :
    ∀ order : List Int,
      ∃ rs, mapFind (ls0.map some) order = .ok rs ∧
        someIds rs = order.filter (fun t => decide (t ∈ ls0.map Layer.id)) := by
  intro order
  induction order with
  | nil => exact ⟨[], rfl, rfl⟩
  | cons t rest ih =>
    obtain ⟨rs, hrs, hids⟩ := ih
    cases hf : ls0.find? (fun l => l.id == t) with
    | none =>
      refine ⟨none :: rs, ?_, ?_⟩
      · simp [mapFind, findById_wf_char, hf, hrs]
      · have hnotin : (decide (t ∈ ls0.map Layer.id)) = false := by
          simp only [decide_eq_false_iff_not]
          intro hmem
          obtain ⟨l, hl, hid⟩ := List.mem_map.mp hmem
          have := List.find?_eq_none.mp hf l hl
          simp [hid] at this
        rw [show someIds (none :: rs) = someIds rs from rfl, hids,
          List.filter_cons, hnotin]
        simp
    | some l =>
      have hid : l.id = t := by
        have := List.find?_some hf
        simpa using this
      have hmem : (decide (t ∈ ls0.map Layer.id)) = true := by
        simp only [decide_eq_true_eq]
        exact hid ▸ List.mem_map_of_mem Layer.id (List.mem_of_find?_eq_some hf)
      refine ⟨some l :: rs, ?_, ?_⟩
      · simp [mapFind, findById_wf_char, hf, hrs]
      · rw [show someIds (some l :: rs) = l.id :: someIds rs from rfl, hids,
          List.filter_cons, hmem, hid]
        simp

/-- The id invariant of the store: the actual layers carry pairwise
distinct ids, all below the id counter. -/
def IdsOK (m : LM) : Prop :=
  (someIds m.layers).Nodup ∧ ∀ i ∈ someIds m.layers, i < m.nextLayerId

/-- Replacing the layer array by one with a sub-permutation of the ids
(and any current id) preserves the id invariant. -/
theorem idsOK_layers_update {m : LM} {ls2 : List (Option Layer)}
    (hsub : List.Subperm (someIds ls2) (someIds m.layers))
    (h : IdsOK m) (cur2 : Int) :
    IdsOK { layers := ls2, currentLayerId := cur2, nextLayerId := m.nextLayerId } := by
  obtain ⟨hnd, hb⟩ := h
  exact idsOK_transfer hsub hnd hb

/-- An id-preserving in-place layer update preserves the id invariant. -/
theorem idsOK_updateFirst {m : LM} (target : Int) (f : Layer → Layer)
    (hf : ∀ l, (f l).id = l.id) (h : IdsOK m) (cur2 : Int) :
    IdsOK { layers := updateFirstById m.layers target f
            currentLayerId := cur2, nextLayerId := m.nextLayerId } := by
  refine idsOK_layers_update ?_ h cur2
  rw [someIds_updateFirstById target f hf]

/-- Lemma: `removeObjectFromLayer` preserves the id invariant. -/
theorem idsOK_removeObjectFromLayer (m : LM) (o : Obj) (h : IdsOK m) :
    IdsOK (removeObjectFromLayer m o).1 := by
  unfold removeObjectFromLayer
  cases hgo : removeObjLayersGo m.layers o.userDataId with
  | threw => exact h
  | ok r =>
    cases r with
    | none => exact h
    | some ls2 =>
      refine idsOK_layers_update ?_ h m.currentLayerId
      rw [someIds_removeObjLayersGo o.userDataId m.layers ls2 hgo]

/-- Setting the front slot of a non-empty array to a hole drops at most
one id. -/
theorem someIds_set_zero_none :
    ∀ ls : List (Option Layer), 0 < ls.length →
      List.Subperm (someIds (ls.set 0 none)) (someIds ls) := by
  intro ls hlen
  match ls with
  | a :: t =>
    show List.Subperm (someIds (none :: t)) (someIds (a :: t))
    cases a with
    | none => exact List.Subperm.refl _
    | some l =>
      have : someIds (none :: t) = someIds t := rfl
      rw [this]
      show List.Subperm (someIds t) (l.id :: someIds t)
      exact (List.sublist_cons_self l.id (someIds t)).subperm

/-- Lemma: `addLayer` preserves the id invariant: the fresh id is strictly
above every existing id, which also makes it distinct from all of
them. -/
theorem idsOK_addLayer (m : LM) (name : Option String) (h : IdsOK m) :
    IdsOK (addLayer m name).1 := by
  obtain ⟨hnd, hb⟩ := h
  unfold addLayer IdsOK
  constructor
  · show (someIds (m.layers ++ [some _])).Nodup
    have hids : someIds (m.layers ++ [some
        { id := m.nextLayerId, name := name.getD ("Layer " ++ toString m.nextLayerId),
          visible := true, objects := [] }]) = someIds m.layers ++ [m.nextLayerId] := by
      simp [someIds]
    rw [hids, List.nodup_append]
    refine ⟨hnd, List.nodup_singleton _, ?_⟩
    intro a ha ha2
    have : a = m.nextLayerId := by simpa using ha2
    have := hb a ha
    omega
  · intro i hi
    simp only [someIds, List.filterMap_append] at hi
    rcases List.mem_append.mp hi with hi | hi
    · have := hb i hi
      simp only
      omega
    · have : i = m.nextLayerId := by simpa using hi
      simp only
      omega

/-- Lemma: `removeLayer` preserves the id invariant: at most one array slot is
spliced out. -/
theorem idsOK_removeLayer (m : LM) (lid : Int) (h : IdsOK m) :
    IdsOK (removeLayer m lid).1 := by
  unfold removeLayer
  split
  · exact h
  · split
    · exact h
    · split
      · exact h
      · have hsub : ∀ n : Nat, List.Subperm (someIds (m.layers.eraseIdx n)) (someIds m.layers) := by
          intro n
          unfold someIds
          exact ((List.eraseIdx_sublist m.layers n).filterMap
            (fun ol => ol.map Layer.id)).subperm
        split
        · split
          · exact h
          · exact idsOK_layers_update (hsub _) h _
          · exact idsOK_layers_update (hsub _) h _
        · exact idsOK_layers_update (hsub _) h _

/-- Lemma: `renameLayer` preserves the id invariant. -/
theorem idsOK_renameLayer (m : LM) (lid : Int) (nm : String) (h : IdsOK m) :
    IdsOK (renameLayer m lid nm).1 := by
  unfold renameLayer
  split
  · exact h
  · exact h
  · dsimp only
    exact idsOK_updateFirst lid (fun l => { l with name := nm }) (fun l => rfl) h _

/-- Lemma: `setCurrentLayer` preserves the id invariant. -/
theorem idsOK_setCurrentLayer (m : LM) (lid : Int) (h : IdsOK m) :
    IdsOK (setCurrentLayer m lid).1 := by
  unfold setCurrentLayer
  split
  · exact h
  · exact h
  · exact idsOK_layers_update (List.Subperm.refl _) h _

/-- Lemma: `addObjectToCurrentLayer` preserves the id invariant. -/
theorem idsOK_addObjectToCurrentLayer (m : LM) (o : Obj) (h : IdsOK m) :
    IdsOK (addObjectToCurrentLayer m o).1 := by
  unfold addObjectToCurrentLayer
  split
  · exact h
  · exact h
  · dsimp only
    exact idsOK_updateFirst m.currentLayerId (fun l => { l with objects := l.objects ++ [o] })
      (fun l => rfl) h _

/-- Lemma: `moveObjectToLayer` preserves the id invariant through both of its
phases. -/
theorem idsOK_moveObjectToLayer (m : LM) (o : Obj) (tid : Int) (h : IdsOK m) :
    IdsOK (moveObjectToLayer m o tid).1 := by
  have h1 := idsOK_removeObjectFromLayer m o h
  unfold moveObjectToLayer
  dsimp only
  split
  · exact h1
  · split
    · exact h1
    · exact h1
    · dsimp only
      exact idsOK_updateFirst tid (fun l => { l with objects := l.objects ++ [o] })
        (fun l => rfl) h1 _

/-- Lemma: `toggleLayerVisibility` preserves the id invariant. -/
theorem idsOK_toggleLayerVisibility (m : LM) (lid : Int) (h : IdsOK m) :
    IdsOK (toggleLayerVisibility m lid).1 := by
  unfold toggleLayerVisibility
  split
  · exact h
  · exact h
  · dsimp only
    exact idsOK_updateFirst lid (fun l2 => { l2 with visible := !l2.visible })
      (fun l => rfl) h _

/-- Lemma: `moveLayerUp` preserves the id invariant: the two writes permute
the array. -/
theorem idsOK_moveLayerUp (m : LM) (lid : Int) (h : IdsOK m) :
    IdsOK (moveLayerUp m lid).1 := by
  unfold moveLayerUp
  cases hfi : findIndexById m.layers lid with
  | threw => exact h
  | ok k =>
    by_cases hk : k > 0
    · rcases findIndexByIdAux_ok_bound lid m.layers 0 k (le_refl 0) hfi
        with hneg | ⟨hk0, hkb⟩
      · omega
      · simp only [if_pos hk]
        have hlen : k.toNat < m.layers.length := by omega
        have hlen1 : (k - 1).toNat < m.layers.length := by omega
        have hkn : k.toNat = (k - 1).toNat + 1 := by omega
        have hk0' : (0 : Int) ≤ k := by omega
        have h1 : (0 : Int) ≤ k - 1 := by omega
        have hlen2 : (k - 1).toNat + 1 < m.layers.length := by omega
        have heq : jsSetElem (jsSetElem m.layers (k - 1) (jsGetElem m.layers k)) k
              (jsGetElem m.layers (k - 1)) =
            (m.layers.set ((k - 1).toNat) (m.layers.getD ((k - 1).toNat + 1) none)).set
              ((k - 1).toNat + 1) (m.layers.getD ((k - 1).toNat) none) := by
          unfold jsGetElem jsSetElem
          simp only [List.length_set, if_pos hk0', if_pos h1, hkn, if_pos hlen1,
            if_pos hlen2]
        rw [heq]
        refine idsOK_layers_update ?_ h _
        have hperm := set_swap_up_perm (α := Option Layer) none ((k - 1).toNat)
          m.layers (by omega)
        exact (hperm.filterMap (fun ol => ol.map Layer.id)).subperm
    · simp only [if_neg hk]
      exact h

/-- Lemma: `moveLayerDown` preserves the id invariant: a genuine swap permutes
the array, and the unknown-id write replaces the front slot by a hole,
only removing an id. -/
theorem idsOK_moveLayerDown (m : LM) (lid : Int) (h : IdsOK m) :
    IdsOK (moveLayerDown m lid).1 := by
  unfold moveLayerDown
  cases hfi : findIndexById m.layers lid with
  | threw => exact h
  | ok k =>
    by_cases hk : k < (m.layers.length : Int) - 1
    · simp only [if_pos hk]
      rcases findIndexByIdAux_ok_bound lid m.layers 0 k (le_refl 0) hfi
        with hneg | ⟨hk0, hkb⟩
      · subst hneg
        have hpos : 0 < m.layers.length := by omega
        have heq : jsSetElem (jsSetElem m.layers (-1 + 1) (jsGetElem m.layers (-1)))
              (-1) (jsGetElem m.layers (-1 + 1)) = m.layers.set 0 none := by
          unfold jsGetElem jsSetElem
          norm_num
          intro hnil
          exfalso
          rw [hnil] at hpos
          simp at hpos
        rw [heq]
        exact idsOK_layers_update (someIds_set_zero_none m.layers hpos) h _
      · have hlen : k.toNat + 1 < m.layers.length := by omega
        have hkn : (k + 1).toNat = k.toNat + 1 := by omega
        have hk1 : (0 : Int) ≤ k + 1 := by omega
        have hlen' : k.toNat < m.layers.length := by omega
        have heq : jsSetElem (jsSetElem m.layers (k + 1) (jsGetElem m.layers k)) k
              (jsGetElem m.layers (k + 1)) =
            (m.layers.set (k.toNat + 1) (m.layers.getD (k.toNat) none)).set
              (k.toNat) (m.layers.getD (k.toNat + 1) none) := by
          unfold jsGetElem jsSetElem
          simp only [List.length_set, if_pos hk0, if_pos hk1, hkn, if_pos hlen,
            if_pos hlen']
        rw [heq]
        refine idsOK_layers_update ?_ h _
        have hperm := set_swap_down_perm (α := Option Layer) none (k.toNat)
          m.layers (by omega)
        exact (hperm.filterMap (fun ol => ol.map Layer.id)).subperm
    · simp only [if_neg hk]
      exact h

/-- The ids of a well-formed array are the layers' ids in order. -/
theorem someIds_map_some (ls0 : List Layer) :
    someIds (ls0.map some) = ls0.map Layer.id := by
  induction ls0 with
  | nil => rfl
  | cons l rest ih => simp_all [someIds]

/-- Lemma: `reorderLayers` preserves the id invariant: a passed permutation
check means the rebuilt array carries a permutation of the prior ids. -/
theorem idsOK_reorderLayers (m : LM) (order : List Int) (h : IdsOK m) :
    IdsOK (reorderLayers m order).1 := by
  unfold reorderLayers
  cases hmi : mapIds m.layers with
  | threw => exact h
  | ok cur =>
    by_cases hsort : jsSortInts cur ≠ jsSortInts order
    · simp only [if_pos hsort]
      exact h
    · simp only [if_neg hsort]
      rw [not_not] at hsort
      obtain ⟨ls0, hls0, hcur⟩ := mapIds_ok_wf m.layers cur hmi
      obtain ⟨rs, hrs, hids⟩ := mapFind_wf ls0 (jsSortInts order)
      rw [hls0, hrs]
      have hperm_cur : List.Perm cur order := by
        have h1 : List.Perm (jsSortInts cur) cur := List.mergeSort_perm cur _
        have h2 : List.Perm (jsSortInts order) order := List.mergeSort_perm order _
        exact (h1.symm.trans (hsort ▸ h2))
      have hall : ∀ t ∈ jsSortInts order, decide (t ∈ ls0.map Layer.id) = true := by
        intro t ht
        rw [decide_eq_true_eq, ← hcur]
        exact hperm_cur.symm.subset ((List.mergeSort_perm order _).subset ht)
      have hfilter :
          (jsSortInts order).filter (fun t => decide (t ∈ ls0.map Layer.id)) =
            jsSortInts order := List.filter_eq_self.mpr hall
      have hchain : List.Perm (someIds rs) (someIds m.layers) := by
        rw [hids, hfilter, hls0, someIds_map_some, ← hcur]
        exact (List.mergeSort_perm order _).trans hperm_cur.symm
      exact idsOK_layers_update hchain.subperm h _

/-- Every public operation preserves the id invariant. -/
theorem idsOK_applyOp (m : LM) (op : Op) (h : IdsOK m) :
    IdsOK (applyOp m op) := by
  cases op with
  | addLayer name => exact idsOK_addLayer m name h
  | removeLayer id => exact idsOK_removeLayer m id h
  | renameLayer id nm => exact idsOK_renameLayer m id nm h
  | setCurrentLayer id => exact idsOK_setCurrentLayer m id h
  | addObjectToCurrentLayer o => exact idsOK_addObjectToCurrentLayer m o h
  | removeObjectFromLayer o => exact idsOK_removeObjectFromLayer m o h
  | moveObjectToLayer o id => exact idsOK_moveObjectToLayer m o id h
  | reorderLayers ids => exact idsOK_reorderLayers m ids h
  | moveLayerUp id => exact idsOK_moveLayerUp m id h
  | moveLayerDown id => exact idsOK_moveLayerDown m id h
  | toggleLayerVisibility id => exact idsOK_toggleLayerVisibility m id h

/-- The id invariant holds at every state reachable by public
operations. -/
theorem idsOK_runOps (ops : List Op) :
    ∀ m : LM, IdsOK m → IdsOK (runOps m ops) := by
  induction ops with
  | nil => intro m h; exact h
  | cons op rest ih =>
    intro m h
    exact ih _ (idsOK_applyOp m op h)

/-- C8: from the initial state, along every sequence of public
operations, no two layers ever share an id, and every `addLayer` call at
any reachable state assigns the current `nextLayerId` as the new layer's
id, increments `nextLayerId` by exactly one, and keeps the ids
pairwise distinct. -/
theorem addLayer_fresh_ids_unique (ops : List Op) :
    (someIds (runOps initLM ops).layers).Nodup ∧
    ∀ name : Option String,
      (addLayer (runOps initLM ops) name).2.id = (runOps initLM ops).nextLayerId ∧
      (addLayer (runOps initLM ops) name).1.nextLayerId =
        (runOps initLM ops).nextLayerId + 1 ∧
      (someIds (addLayer (runOps initLM ops) name).1.layers).Nodup := by
  have h := idsOK_runOps ops initLM (by constructor <;> decide)
  exact ⟨h.1, fun name => ⟨rfl, rfl, (idsOK_addLayer _ name h).1⟩⟩
